import Mathlib

/-!
Verification of the reactivation-campaign batch processor (`src/main.py`,
`src/utils.py`).

The program reads a spreadsheet of contact rows, and on each invocation either
advances an active batch (rows with status "Email Sent", SMS after a 24h delay)
or starts a new batch (up to 30 rows with status "New" or "", first-step email).
We embed the decision logic shallowly: spreadsheet writes, messaging-API calls
and webhook notifications become an explicit event trace, external collaborators
(`datetime.fromisoformat`, `datetime.now`, the messaging API's success/failure)
become parameters of an environment record.
-/

namespace Reactivation

/-- A spreadsheet row, as `read_all_rows` returns it: a list of cell strings. -/
abbrev Row := List String

/- Configuration constants from `main.py`. -/

def BATCH_SIZE : Nat := 30

def DELAY_HOURS : Nat := 24

def STATUS_COL_IDX : Nat := 8

def DATE_SENT_COL_IDX : Nat := 9

def CONTACT_ID_COL_IDX : Nat := 7

def FIRST_NAME_COL_IDX : Nat := 1

def EMAIL_SUBJECT : String := "Important Update"

/-- `EMAIL_BODY_TEMPLATE.format(first_name=...)` from `main.py`. -/
def EMAIL_BODY_TEMPLATE (first_name : String) : String :=
  "<div style=\"font-size: 16px; font-family: Arial, sans-serif; color: #333;\">\n<p>Hi "
    ++ first_name ++
    ",</p>\n\n<p>It\u2019s been a while since we saw you! I was updating our client records and realized you qualify for our \"Returning Client\" status.</p>\n\n<p>That means if you move with us again, you automatically get <strong>5% off</strong> your quote.</p>\n\n<p>We just opened up a few spots for estimates next week. Are you moving soon (or know someone who is)?</p>\n\n<p>Best,<br>Jim</p>\n</div>"

/-- `SMS_BODY_TEMPLATE.format(first_name=...)` from `main.py`. -/
def SMS_BODY_TEMPLATE (first_name : String) : String :=
  "Hey " ++ first_name ++
    ", Jim here from Splendid Moving.\n\nDid you see my email about the 5% loyalty discount?\n\nIf you are moving soon, you can use this link to get a quote with the 5% off applied: https://services.msgsndr.com/urls/l/QGRUkVTzw \n\nLet me know if it works!"

/-- Python `str.strip()`: drop leading and trailing whitespace. (Structurally
recursive so that it evaluates on concrete inputs.) -/
def pyStrip (s : String) : String :=
  String.mk (((s.data.dropWhile Char.isWhitespace).reverse.dropWhile
    Char.isWhitespace).reverse)

/-- `get_status(row)`: the status cell, stripped, `""` when the row is short. -/
def get_status (row : Row) : String :=
  if h : STATUS_COL_IDX < row.length then pyStrip (row.get ⟨STATUS_COL_IDX, h⟩) else ""

/-- `get_date_sent(row)`: the date cell, stripped, `None` when the row is short. -/
def get_date_sent (row : Row) : Option String :=
  if h : DATE_SENT_COL_IDX < row.length then some (pyStrip (row.get ⟨DATE_SENT_COL_IDX, h⟩))
  else none

/-- `row[CONTACT_ID_COL_IDX] if len(row) > CONTACT_ID_COL_IDX else None`. -/
def contact_id_of (row : Row) : Option String :=
  if h : CONTACT_ID_COL_IDX < row.length then some (row.get ⟨CONTACT_ID_COL_IDX, h⟩)
  else none

/-- `row[FIRST_NAME_COL_IDX] if len(row) > FIRST_NAME_COL_IDX else "there"`. -/
def first_name_of (row : Row) : String :=
  if h : FIRST_NAME_COL_IDX < row.length then row.get ⟨FIRST_NAME_COL_IDX, h⟩ else "there"

/-- Python truthiness of an optional string (`if not contact_id`): `None` and
`""` are falsy. -/
def truthy : Option String → Bool
  | none => false
  | some s => !s.isEmpty

/-- One externally visible effect of a run: a messaging-API call
(`send_ghl_message`, tagged with the row index the loop is processing), a
single-cell spreadsheet write (`GoogleSheetClient.update_cell`), or a webhook
notification (`send_notification`). -/
inductive Ev where
  | send : Nat → String → String → String → Ev
  | cell : Nat → Nat → String → Ev
  | notify : String → Ev
  deriving DecidableEq

/-- `GoogleSheetClient.update_status`: writes the status cell, then — when a
date column and value are both given — the date cell, as two separate
`update_cell` calls. -/
def update_status (row_index : Nat) (status_col_index : Nat) (status : String)
    (date_col_index : Option Nat) (date_val : Option String) : List Ev :=
  Ev.cell row_index status_col_index status ::
    (match date_col_index, date_val with
     | some c, some v => [Ev.cell row_index c v]
     | _, _ => [])

/-- The external collaborators of one run: the current time (`datetime.now()`,
as an integer number of seconds and as its ISO string), ISO-8601 parsing
(`datetime.fromisoformat`; `none` models a `ValueError`), and the outcome of
each messaging-API call (`true` = 2xx, `false` = the call raises), keyed by the
row index being processed. -/
structure Env where
  now : Int
  nowIso : String
  parseDate : String → Option Int
  sendOk : Nat → Bool

/-- `timedelta(hours=DELAY_HOURS)` in seconds. -/
def delaySeconds : Int := (DELAY_HOURS : Int) * 3600

/-- The body of the active-batch loop of `main` for one row: the events it
emits and its contribution to `processed_count`. -/
def processActiveRow (env : Env) (dry_run : Bool) (row_idx : Nat) (row : Row) :
    List Ev × Nat :=
  let contact_id := contact_id_of row
  let first_name := first_name_of row
  if !truthy contact_id then ([], 0)
  else
    match get_date_sent row with
    | none => ([], 0)
    | some date_sent_str =>
      if date_sent_str.isEmpty then ([], 0)
      else
        match env.parseDate date_sent_str with
        | none => ([], 0)
        | some date_sent =>
          if env.now - date_sent < delaySeconds then ([], 0)
          else
            let msg_body := SMS_BODY_TEMPLATE first_name
            if dry_run then ([], 1)
            else if env.sendOk row_idx then
              (Ev.send row_idx (contact_id.getD "") "SMS" msg_body ::
                update_status row_idx STATUS_COL_IDX "Done" none none, 1)
            else
              (Ev.send row_idx (contact_id.getD "") "SMS" msg_body ::
                update_status row_idx STATUS_COL_IDX "SMS Failed" none none, 0)

/-- The body of the new-batch loop of `main` for one row: the events it emits
and its contribution to `new_batch_count`. -/
def processNewRow (env : Env) (dry_run : Bool) (row_idx : Nat) (row : Row) :
    List Ev × Nat :=
  let contact_id := contact_id_of row
  let first_name := first_name_of row
  if !truthy contact_id then ([], 0)
  else
    let email_body := EMAIL_BODY_TEMPLATE first_name
    if dry_run then ([], 1)
    else if env.sendOk row_idx then
      (Ev.send row_idx (contact_id.getD "") "Email" email_body ::
        update_status row_idx STATUS_COL_IDX "Email Sent"
          (some DATE_SENT_COL_IDX) (some env.nowIso), 1)
    else
      (Ev.send row_idx (contact_id.getD "") "Email" email_body ::
        update_status row_idx STATUS_COL_IDX "Email Failed" none none, 0)

/-- `get_status(row) == "Email Sent"`: the active-batch classification. -/
def isActiveStatus (row : Row) : Bool :=
  get_status row == "Email Sent"

/-- `status == "New" or status == ""`: the new-batch classification. -/
def isNewStatus (row : Row) : Bool :=
  get_status row == "New" || get_status row == ""

/-- `for i, row in enumerate(data_rows): if p(row): indices.append(i + 1)` —
the index-collecting loop pattern of `main`, with `i` the enumeration counter
and `i + 1` the appended sheet row index. -/
def collectIdx (p : Row → Bool) : Nat → List Row → List Nat
  | _, [] => []
  | i, row :: rest =>
    if p row then (i + 1) :: collectIdx p (i + 1) rest
    else collectIdx p (i + 1) rest

/-- The `active_batch_indices` scan of `main`. -/
def activeBatchIndices (data_rows : List Row) : List Nat :=
  collectIdx isActiveStatus 0 data_rows

/-- The capped `new_batch_indices` loop of `main`: append eligible indices,
break as soon as `BATCH_SIZE` is reached. -/
def selectNewBatch : Nat → List Row → List Nat → List Nat
  | _, [], acc => acc
  | i, row :: rest, acc =>
    if isNewStatus row then
      let acc2 := acc ++ [i + 1]
      if BATCH_SIZE ≤ acc2.length then acc2
      else selectNewBatch (i + 1) rest acc2
    else selectNewBatch (i + 1) rest acc

/-- `new_batch_indices` as `main` computes it. -/
def newBatchIndices (data_rows : List Row) : List Nat :=
  selectNewBatch 0 data_rows []

/-- The events of one batch loop, in iteration order. -/
def batchTrace (f : Nat → List Ev × Nat) (idxs : List Nat) : List Ev :=
  (idxs.map (fun j => (f j).1)).flatten

/-- The processed count of one batch loop. -/
def batchCount (f : Nat → List Ev × Nat) (idxs : List Nat) : Nat :=
  (idxs.map (fun j => (f j).2)).sum

/-- The active-branch summary message of `main`. -/
def activeNotifyMsg (count : Nat) : String :=
  "Completed SMS batch for " ++ toString count ++ " contacts."

/-- The new-branch summary message of `main`. -/
def newNotifyMsg (count : Nat) : String :=
  "Started new batch. Sent Email to " ++ toString count ++ " contacts."

/-- `if count > 0: ... if not dry_run: send_notification(msg)`. -/
def notifyIf (dry_run : Bool) (count : Nat) (msg : String) : List Ev :=
  if 0 < count && !dry_run then [Ev.notify msg] else []

/-- `main(dry_run)` of `main.py`, as the trace of external effects of one
invocation on the spreadsheet contents `rows` (header row included). -/
def mainRun (env : Env) (dry_run : Bool) (rows : List Row) : List Ev :=
  if rows.isEmpty then []
  else
    let data_rows := rows.drop 1
    let active_batch_indices := activeBatchIndices data_rows
    if !active_batch_indices.isEmpty then
      let f := fun j => processActiveRow env dry_run j (rows.getD j [])
      batchTrace f active_batch_indices ++
        notifyIf dry_run (batchCount f active_batch_indices)
          (activeNotifyMsg (batchCount f active_batch_indices))
    else
      let new_batch_indices := newBatchIndices data_rows
      if new_batch_indices.isEmpty then []
      else
        let f := fun j => processNewRow env dry_run j (rows.getD j [])
        batchTrace f new_batch_indices ++
          notifyIf dry_run (batchCount f new_batch_indices)
            (newNotifyMsg (batchCount f new_batch_indices))

/-- The spreadsheet contents before the run, as a cell map. -/
def sheetOf (rows : List Row) (r c : Nat) : String :=
  (rows.getD r []).getD c ""

/-- Apply one event to the cell map (only cell writes change it). -/
def applyEv (s : Nat → Nat → String) : Ev → Nat → Nat → String
  | Ev.cell r c v => fun r2 c2 => if r2 = r ∧ c2 = c then v else s r2 c2
  | _ => s

/-- Apply a trace of events to the cell map, in order. -/
def applyTrace (s : Nat → Nat → String) : List Ev → Nat → Nat → String
  | [] => s
  | ev :: t => applyTrace (applyEv s ev) t

/-- The value of cell `(r, c)` after replaying `trace` over `rows`. -/
def cellAfter (rows : List Row) (trace : List Ev) (r c : Nat) : String :=
  applyTrace (sheetOf rows) trace r c

/-- Does the event concern sheet row `j` (a send made while processing `j`, or
a cell write into row `j`)? -/
def targetsRow (j : Nat) : Ev → Bool
  | Ev.send r _ _ _ => decide (r = j)
  | Ev.cell r _ _ => decide (r = j)
  | Ev.notify _ => false

/-- Does the event write cell `(r, c)`? -/
def writesCell (r c : Nat) : Ev → Bool
  | Ev.cell r2 c2 _ => decide (r2 = r ∧ c2 = c)
  | _ => false

/-- Is the event an email-channel messaging call? -/
def isEmailSend : Ev → Bool
  | Ev.send _ _ t _ => decide (t = "Email")
  | _ => false

/-! ### Trace-replay infrastructure -/

lemma applyTrace_append (s : Nat → Nat → String) (t1 t2 : List Ev) :
    applyTrace s (t1 ++ t2) = applyTrace (applyTrace s t1) t2 := by
  induction t1 generalizing s with
  | nil => rfl
  | cons ev t ih => simp only [List.cons_append, applyTrace]; exact ih (applyEv s ev)

lemma applyEv_not_writes (s : Nat → Nat → String) (ev : Ev) (r c : Nat)
    (h : writesCell r c ev = false) : applyEv s ev r c = s r c := by
  cases ev with
  | send a b t d => rfl
  | notify m => rfl
  | cell r2 c2 v =>
    simp only [writesCell, decide_eq_false_iff_not] at h
    simp only [applyEv]
    rw [if_neg]
    rintro ⟨rfl, rfl⟩
    exact h ⟨rfl, rfl⟩

lemma applyTrace_not_written (t : List Ev) (r c : Nat)
    (h : ∀ ev ∈ t, writesCell r c ev = false) :
    ∀ s : Nat → Nat → String, applyTrace s t r c = s r c := by
  induction t with
  | nil => intro s; rfl
  | cons ev t ih =>
    intro s
    have h1 : writesCell r c ev = false := h ev (List.mem_cons_self _ _)
    have h2 : ∀ e ∈ t, writesCell r c e = false :=
      fun e he => h e (List.mem_cons_of_mem _ he)
    calc applyTrace s (ev :: t) r c = applyTrace (applyEv s ev) t r c := rfl
      _ = applyEv s ev r c := ih h2 (applyEv s ev)
      _ = s r c := applyEv_not_writes s ev r c h1

lemma applyTrace_congr (t : List Ev) (r c : Nat) :
    ∀ s1 s2 : Nat → Nat → String, s1 r c = s2 r c →
      applyTrace s1 t r c = applyTrace s2 t r c := by
  induction t with
  | nil => intro s1 s2 h; exact h
  | cons ev t ih =>
    intro s1 s2 h
    refine ih (applyEv s1 ev) (applyEv s2 ev) ?_
    cases ev with
    | send a b ty d => exact h
    | notify m => exact h
    | cell r2 c2 v =>
      simp only [applyEv]
      by_cases hc : r = r2 ∧ c = c2
      · rw [if_pos hc, if_pos hc]
      · rw [if_neg hc, if_neg hc]; exact h

lemma batchTrace_cons (f : Nat → List Ev × Nat) (j : Nat) (rest : List Nat) :
    batchTrace f (j :: rest) = (f j).1 ++ batchTrace f rest := by
  simp [batchTrace]

lemma batchTrace_append (f : Nat → List Ev × Nat) (l1 l2 : List Nat) :
    batchTrace f (l1 ++ l2) = batchTrace f l1 ++ batchTrace f l2 := by
  simp [batchTrace]

lemma mem_batchTrace {f : Nat → List Ev × Nat} {idxs : List Nat} {ev : Ev} :
    ev ∈ batchTrace f idxs ↔ ∃ j ∈ idxs, ev ∈ (f j).1 := by
  simp only [batchTrace, List.mem_flatten, List.mem_map]
  constructor
  · rintro ⟨l, ⟨j, hj, rfl⟩, hev⟩
    exact ⟨j, hj, hev⟩
  · rintro ⟨j, hj, hev⟩
    exact ⟨(f j).1, ⟨j, hj, rfl⟩, hev⟩

lemma batchTrace_nil (f : Nat → List Ev × Nat) (idxs : List Nat)
    (h : ∀ j ∈ idxs, (f j).1 = []) : batchTrace f idxs = [] := by
  induction idxs with
  | nil => rfl
  | cons j rest ih =>
    rw [batchTrace_cons, h j (List.mem_cons_self _ _),
      ih (fun k hk => h k (List.mem_cons_of_mem _ hk))]
    rfl

lemma batchCount_cons (f : Nat → List Ev × Nat) (j : Nat) (rest : List Nat) :
    batchCount f (j :: rest) = (f j).2 + batchCount f rest := by
  simp [batchCount]

lemma targetsRow_false_writesCell (j c : Nat) (ev : Ev)
    (h : targetsRow j ev = false) : writesCell j c ev = false := by
  cases ev <;> simp_all [targetsRow, writesCell]

lemma notifyIf_mem {dr : Bool} {n : Nat} {m : String} {ev : Ev}
    (h : ev ∈ notifyIf dr n m) : ev = Ev.notify m := by
  unfold notifyIf at h
  split at h
  · simpa using h
  · simp at h

/-! ### The index-collecting scans -/

lemma lt_of_mem_collectIdx (p : Row → Bool) :
    ∀ (rows : List Row) (i j : Nat), j ∈ collectIdx p i rows → i < j := by
  intro rows
  induction rows with
  | nil => intro i j h; simp [collectIdx] at h
  | cons row rest ih =>
    intro i j h
    simp only [collectIdx] at h
    by_cases hp : p row = true
    · rw [if_pos hp] at h
      rcases List.mem_cons.mp h with rfl | h2
      · omega
      · have := ih (i + 1) j h2; omega
    · rw [if_neg hp] at h
      have := ih (i + 1) j h; omega

lemma nodup_collectIdx (p : Row → Bool) :
    ∀ (rows : List Row) (i : Nat), (collectIdx p i rows).Nodup := by
  intro rows
  induction rows with
  | nil => intro i; simp [collectIdx]
  | cons row rest ih =>
    intro i
    simp only [collectIdx]
    by_cases hp : p row = true
    · rw [if_pos hp]
      refine List.nodup_cons.mpr ⟨fun hmem => ?_, ih (i + 1)⟩
      have := lt_of_mem_collectIdx p rest (i + 1) (i + 1) hmem
      omega
    · rw [if_neg hp]; exact ih (i + 1)

lemma sorted_collectIdx (p : Row → Bool) :
    ∀ (rows : List Row) (i : Nat), List.Sorted (· < ·) (collectIdx p i rows) := by
  intro rows
  induction rows with
  | nil => intro i; simp [collectIdx]
  | cons row rest ih =>
    intro i
    simp only [collectIdx]
    by_cases hp : p row = true
    · rw [if_pos hp]
      exact List.sorted_cons.mpr
        ⟨fun b hb => lt_of_mem_collectIdx p rest (i + 1) b hb, ih (i + 1)⟩
    · rw [if_neg hp]; exact ih (i + 1)

lemma mem_collectIdx (p : Row → Bool) :
    ∀ (rows : List Row) (i j : Nat),
      j ∈ collectIdx p i rows ↔
        i < j ∧ j - i ≤ rows.length ∧ p (rows.getD (j - i - 1) []) = true := by
  intro rows
  induction rows with
  | nil =>
    intro i j
    simp only [collectIdx, List.not_mem_nil, List.length_nil, false_iff]
    rintro ⟨h1, h2, h3⟩
    omega
  | cons row rest ih =>
    intro i j
    simp only [collectIdx, List.length_cons]
    by_cases hp : p row = true
    · rw [if_pos hp, List.mem_cons, ih (i + 1) j]
      constructor
      · rintro (rfl | ⟨h1, h2, h3⟩)
        · refine ⟨by omega, by omega, ?_⟩
          have he : i + 1 - i - 1 = 0 := by omega
          rw [he, List.getD_cons_zero]
          exact hp
        · refine ⟨by omega, by omega, ?_⟩
          have he : j - i - 1 = (j - (i + 1) - 1) + 1 := by omega
          rw [he, List.getD_cons_succ]
          exact h3
      · rintro ⟨h1, h2, h3⟩
        by_cases hji : j = i + 1
        · exact Or.inl hji
        · right
          refine ⟨by omega, by omega, ?_⟩
          have he : j - i - 1 = (j - (i + 1) - 1) + 1 := by omega
          rw [he, List.getD_cons_succ] at h3
          exact h3
    · rw [if_neg hp, ih (i + 1) j]
      constructor
      · rintro ⟨h1, h2, h3⟩
        refine ⟨by omega, by omega, ?_⟩
        have he : j - i - 1 = (j - (i + 1) - 1) + 1 := by omega
        rw [he, List.getD_cons_succ]
        exact h3
      · rintro ⟨h1, h2, h3⟩
        by_cases hji : j = i + 1
        · subst hji
          have he : i + 1 - i - 1 = 0 := by omega
          rw [he, List.getD_cons_zero] at h3
          exact absurd h3 hp
        · refine ⟨by omega, by omega, ?_⟩
          have he : j - i - 1 = (j - (i + 1) - 1) + 1 := by omega
          rw [he] at h3
          rw [List.getD_cons_succ] at h3
          exact h3

/-- Membership in an index scan started at 0, phrased in data-row coordinates
(data row `i` is sheet row `i + 1`). -/
lemma mem_collectIdx_succ (p : Row → Bool) {data_rows : List Row} {i : Nat} :
    (i + 1) ∈ collectIdx p 0 data_rows ↔
      i < data_rows.length ∧ p (data_rows.getD i []) = true := by
  rw [mem_collectIdx]
  constructor
  · rintro ⟨h1, h2, h3⟩
    have he : i + 1 - 0 - 1 = i := by omega
    rw [he] at h3
    exact ⟨by omega, h3⟩
  · rintro ⟨h1, h3⟩
    have he : i + 1 - 0 - 1 = i := by omega
    refine ⟨by omega, by omega, ?_⟩
    rw [he]
    exact h3

/-- Membership in the active scan, phrased over the full sheet. -/
lemma mem_activeBatchIndices {data_rows : List Row} {i : Nat} :
    (i + 1) ∈ activeBatchIndices data_rows ↔
      i < data_rows.length ∧ isActiveStatus (data_rows.getD i []) = true :=
  mem_collectIdx_succ isActiveStatus

lemma selectNewBatch_eq :
    ∀ (rows : List Row) (i : Nat) (acc : List Nat), acc.length < BATCH_SIZE →
      selectNewBatch i rows acc =
        acc ++ (collectIdx isNewStatus i rows).take (BATCH_SIZE - acc.length) := by
  intro rows
  induction rows with
  | nil => intro i acc h; simp [selectNewBatch, collectIdx]
  | cons row rest ih =>
    intro i acc h
    simp only [selectNewBatch, collectIdx]
    by_cases hp : isNewStatus row = true
    · rw [if_pos hp, if_pos hp]
      by_cases hfull : BATCH_SIZE ≤ (acc ++ [i + 1]).length
      · rw [if_pos hfull]
        simp only [List.length_append, List.length_cons, List.length_nil] at hfull
        have hlen : BATCH_SIZE - acc.length = 1 := by omega
        rw [hlen, List.take_succ_cons, List.take_zero]
      · rw [if_neg hfull]
        simp only [List.length_append, List.length_cons, List.length_nil] at hfull
        rw [ih (i + 1) (acc ++ [i + 1]) (by simp; omega)]
        have hlen : BATCH_SIZE - acc.length = (BATCH_SIZE - (acc ++ [i + 1]).length) + 1 := by
          simp; omega
        rw [hlen, List.take_succ_cons, List.append_assoc]
        rfl
    · rw [if_neg hp, if_neg hp]
      exact ih (i + 1) acc h

/-- The new-batch loop selects exactly the first `BATCH_SIZE` eligible rows. -/
lemma newBatchIndices_eq (data_rows : List Row) :
    newBatchIndices data_rows =
      (collectIdx isNewStatus 0 data_rows).take BATCH_SIZE := by
  rw [newBatchIndices, selectNewBatch_eq data_rows 0 [] (by simp [BATCH_SIZE])]
  simp

lemma nodup_newBatchIndices (data_rows : List Row) :
    (newBatchIndices data_rows).Nodup := by
  rw [newBatchIndices_eq]
  exact (nodup_collectIdx isNewStatus data_rows 0).sublist (List.take_sublist _ _)

lemma mem_of_mem_newBatchIndices {data_rows : List Row} {j : Nat}
    (h : j ∈ newBatchIndices data_rows) : j ∈ collectIdx isNewStatus 0 data_rows := by
  rw [newBatchIndices_eq] at h
  exact (List.take_sublist _ _).mem h

/-! ### Per-row evaluation lemmas -/

lemma truthy_some {cid : String} (h : cid ≠ "") : truthy (some cid) = true := by
  have he : cid.isEmpty = false := by
    rw [← Bool.not_eq_true, String.isEmpty_iff]
    exact h
  simp [truthy, he]

lemma processActiveRow_shape (env : Env) (d : Bool) (j : Nat) (row : Row) :
    (processActiveRow env d j row).1 = [] ∨
      ∃ cid body,
        (processActiveRow env d j row).1 =
          [Ev.send j cid "SMS" body,
           Ev.cell j STATUS_COL_IDX (if env.sendOk j then "Done" else "SMS Failed")] := by
  simp only [processActiveRow]
  split
  · exact Or.inl rfl
  · split
    · exact Or.inl rfl
    · split
      · exact Or.inl rfl
      · split
        · exact Or.inl rfl
        · split
          · exact Or.inl rfl
          · split
            · exact Or.inl rfl
            · split
              next hok =>
                exact Or.inr ⟨(contact_id_of row).getD "",
                  SMS_BODY_TEMPLATE (first_name_of row), by simp [update_status, hok]⟩
              next hok =>
                exact Or.inr ⟨(contact_id_of row).getD "",
                  SMS_BODY_TEMPLATE (first_name_of row), by simp [update_status, hok]⟩

lemma processNewRow_shape (env : Env) (d : Bool) (j : Nat) (row : Row) :
    (processNewRow env d j row).1 = [] ∨
      (env.sendOk j = true ∧ ∃ cid body,
        (processNewRow env d j row).1 =
          [Ev.send j cid "Email" body, Ev.cell j STATUS_COL_IDX "Email Sent",
           Ev.cell j DATE_SENT_COL_IDX env.nowIso]) ∨
      (env.sendOk j = false ∧ ∃ cid body,
        (processNewRow env d j row).1 =
          [Ev.send j cid "Email" body, Ev.cell j STATUS_COL_IDX "Email Failed"]) := by
  simp only [processNewRow]
  split
  · exact Or.inl rfl
  · split
    · exact Or.inl rfl
    · split
      next hok =>
        exact Or.inr (Or.inl ⟨hok, (contact_id_of row).getD "",
          EMAIL_BODY_TEMPLATE (first_name_of row), by simp [update_status]⟩)
      next hok =>
        exact Or.inr (Or.inr ⟨by simpa using hok, (contact_id_of row).getD "",
          EMAIL_BODY_TEMPLATE (first_name_of row), by simp [update_status]⟩)

lemma processActiveRow_dry (env : Env) (j : Nat) (row : Row) :
    (processActiveRow env true j row).1 = [] := by
  simp only [processActiveRow]
  split
  · rfl
  · split
    · rfl
    · split
      · rfl
      · split
        · rfl
        · split
          · rfl
          · simp

lemma processNewRow_dry (env : Env) (j : Nat) (row : Row) :
    (processNewRow env true j row).1 = [] := by
  simp only [processNewRow]
  split
  · rfl
  · simp

lemma processActiveRow_skip_time (env : Env) (dr : Bool) (j : Nat) (row : Row)
    {ds : String} {d : Int}
    (hds : get_date_sent row = some ds) (hp : env.parseDate ds = some d)
    (ht : env.now - d < delaySeconds) :
    (processActiveRow env dr j row).1 = [] := by
  by_cases htr : truthy (contact_id_of row) = true
  · by_cases hie : ds.isEmpty = true
    · simp [processActiveRow, hds, hie, htr]
    · simp [processActiveRow, hds, hp, htr, hie, ht]
  · simp only [Bool.not_eq_true] at htr
    simp [processActiveRow, htr]

lemma processActiveRow_run (env : Env) (j : Nat) (row : Row) {cid ds : String} {d : Int}
    (hcid : contact_id_of row = some cid) (hne : cid ≠ "")
    (hds : get_date_sent row = some ds) (hdne : ds ≠ "")
    (hp : env.parseDate ds = some d) (ht : ¬ env.now - d < delaySeconds) :
    processActiveRow env false j row =
      ([Ev.send j cid "SMS" (SMS_BODY_TEMPLATE (first_name_of row)),
        Ev.cell j STATUS_COL_IDX (if env.sendOk j then "Done" else "SMS Failed")],
       if env.sendOk j then 1 else 0) := by
  have hie : ds.isEmpty = false := by
    rw [← Bool.not_eq_true, String.isEmpty_iff]
    exact hdne
  by_cases hok : env.sendOk j = true
  · simp [processActiveRow, hcid, hds, hp, truthy_some hne, hie, ht, update_status, hok]
  · simp only [Bool.not_eq_true] at hok
    simp [processActiveRow, hcid, hds, hp, truthy_some hne, hie, ht, update_status, hok]

lemma processNewRow_skip (env : Env) (dr : Bool) (j : Nat) (row : Row)
    (h : truthy (contact_id_of row) = false) :
    processNewRow env dr j row = ([], 0) := by
  simp [processNewRow, h]

lemma processNewRow_run_ok (env : Env) (j : Nat) (row : Row) {cid : String}
    (hcid : contact_id_of row = some cid) (hne : cid ≠ "")
    (hok : env.sendOk j = true) :
    processNewRow env false j row =
      ([Ev.send j cid "Email" (EMAIL_BODY_TEMPLATE (first_name_of row)),
        Ev.cell j STATUS_COL_IDX "Email Sent",
        Ev.cell j DATE_SENT_COL_IDX env.nowIso], 1) := by
  simp [processNewRow, hcid, truthy_some hne, hok, update_status]

lemma processNewRow_run_fail (env : Env) (j : Nat) (row : Row) {cid : String}
    (hcid : contact_id_of row = some cid) (hne : cid ≠ "")
    (hok : env.sendOk j = false) :
    processNewRow env false j row =
      ([Ev.send j cid "Email" (EMAIL_BODY_TEMPLATE (first_name_of row)),
        Ev.cell j STATUS_COL_IDX "Email Failed"], 0) := by
  simp [processNewRow, hcid, truthy_some hne, hok, update_status]

lemma processActiveRow_targets (env : Env) (d : Bool) (j : Nat) (row : Row) :
    ∀ ev ∈ (processActiveRow env d j row).1, targetsRow j ev = true := by
  intro ev hev
  rcases processActiveRow_shape env d j row with h | ⟨cid, body, h⟩
  · rw [h] at hev; simp at hev
  · rw [h] at hev
    simp only [List.mem_cons, List.not_mem_nil, or_false] at hev
    rcases hev with rfl | rfl <;> simp [targetsRow]

lemma processNewRow_targets (env : Env) (d : Bool) (j : Nat) (row : Row) :
    ∀ ev ∈ (processNewRow env d j row).1, targetsRow j ev = true := by
  intro ev hev
  rcases processNewRow_shape env d j row with h | ⟨_, cid, body, h⟩ | ⟨_, cid, body, h⟩
  · rw [h] at hev; simp at hev
  · rw [h] at hev
    simp only [List.mem_cons, List.not_mem_nil, or_false] at hev
    rcases hev with rfl | rfl | rfl <;> simp [targetsRow]
  · rw [h] at hev
    simp only [List.mem_cons, List.not_mem_nil, or_false] at hev
    rcases hev with rfl | rfl <;> simp [targetsRow]

lemma processActiveRow_no_email (env : Env) (d : Bool) (j : Nat) (row : Row) :
    ∀ ev ∈ (processActiveRow env d j row).1, isEmailSend ev = false := by
  intro ev hev
  rcases processActiveRow_shape env d j row with h | ⟨cid, body, h⟩
  · rw [h] at hev; simp at hev
  · rw [h] at hev
    simp only [List.mem_cons, List.not_mem_nil, or_false] at hev
    rcases hev with rfl | rfl <;> simp [isEmailSend]

/-! ### Branch equations for `mainRun` -/

lemma mainRun_active_eq (env : Env) (dr : Bool) (rows : List Row)
    (h : activeBatchIndices (rows.drop 1) ≠ []) :
    mainRun env dr rows =
      batchTrace (fun j => processActiveRow env dr j (rows.getD j []))
          (activeBatchIndices (rows.drop 1)) ++
        notifyIf dr
          (batchCount (fun j => processActiveRow env dr j (rows.getD j []))
            (activeBatchIndices (rows.drop 1)))
          (activeNotifyMsg
            (batchCount (fun j => processActiveRow env dr j (rows.getD j []))
              (activeBatchIndices (rows.drop 1)))) := by
  match rows with
  | [] => simp [activeBatchIndices, collectIdx] at h
  | r0 :: rest =>
    have h3 : activeBatchIndices rest ≠ [] := by simpa using h
    simp [mainRun, h3]

lemma mainRun_new_eq (env : Env) (dr : Bool) (rows : List Row)
    (h : activeBatchIndices (rows.drop 1) = []) :
    mainRun env dr rows =
      batchTrace (fun j => processNewRow env dr j (rows.getD j []))
          (newBatchIndices (rows.drop 1)) ++
        notifyIf dr
          (batchCount (fun j => processNewRow env dr j (rows.getD j []))
            (newBatchIndices (rows.drop 1)))
          (newNotifyMsg
            (batchCount (fun j => processNewRow env dr j (rows.getD j []))
              (newBatchIndices (rows.drop 1)))) := by
  match rows with
  | [] => simp [mainRun, newBatchIndices, selectNewBatch, batchTrace, batchCount, notifyIf]
  | r0 :: rest =>
    have h3 : activeBatchIndices rest = [] := by simpa using h
    have h2 : (activeBatchIndices rest).isEmpty = true := by
      simp [List.isEmpty_iff, h3]
    by_cases hn : (newBatchIndices rest).isEmpty = true
    · have hn2 : newBatchIndices rest = [] := List.isEmpty_iff.mp hn
      simp [mainRun, h2, hn, hn2, batchTrace, batchCount, notifyIf]
    · simp only [Bool.not_eq_true] at hn
      simp [mainRun, h2, hn]

/-! ### The single-writer decomposition -/

lemma batch_not_target (f : Nat → List Ev × Nat) (idxs : List Nat) (j : Nat)
    (hown : ∀ k ∈ idxs, ∀ ev ∈ (f k).1, targetsRow k ev = true)
    (hj : j ∉ idxs) : ∀ ev ∈ batchTrace f idxs, targetsRow j ev = false := by
  intro ev hev
  rcases mem_batchTrace.mp hev with ⟨k, hk, hevk⟩
  have ht := hown k hk ev hevk
  have hkj : k ≠ j := fun hh => hj (hh ▸ hk)
  cases ev with
  | send r a b c => simp [targetsRow] at ht ⊢; omega
  | cell r a b => simp [targetsRow] at ht ⊢; omega
  | notify m => rfl

lemma cellAfter_batch (rows : List Row) (f : Nat → List Ev × Nat) (idxs : List Nat)
    (tail : List Ev) (j c : Nat)
    (hown : ∀ k ∈ idxs, ∀ ev ∈ (f k).1, targetsRow k ev = true)
    (hnd : idxs.Nodup)
    (htail : ∀ ev ∈ tail, writesCell j c ev = false) :
    cellAfter rows (batchTrace f idxs ++ tail) j c =
      if j ∈ idxs then applyTrace (sheetOf rows) (f j).1 j c
      else sheetOf rows j c := by
  rw [cellAfter, applyTrace_append, applyTrace_not_written tail j c htail]
  by_cases hj : j ∈ idxs
  · rw [if_pos hj]
    obtain ⟨pre, post, rfl⟩ := List.append_of_mem hj
    rw [List.nodup_append] at hnd
    obtain ⟨hpre, hcons, hdisj⟩ := hnd
    have hjpre : j ∉ pre := fun hh => hdisj hh (List.mem_cons_self _ _)
    have hjpost : j ∉ post := (List.nodup_cons.mp hcons).1
    have hownpre : ∀ k ∈ pre, ∀ ev ∈ (f k).1, targetsRow k ev = true :=
      fun k hk => hown k (List.mem_append_left _ hk)
    have hownpost : ∀ k ∈ post, ∀ ev ∈ (f k).1, targetsRow k ev = true :=
      fun k hk => hown k (List.mem_append_right _ (List.mem_cons_of_mem _ hk))
    rw [batchTrace_append, batchTrace_cons, applyTrace_append, applyTrace_append]
    rw [applyTrace_not_written (batchTrace f post) j c
      (fun ev hev => targetsRow_false_writesCell j c ev
        (batch_not_target f post j hownpost hjpost ev hev))]
    exact applyTrace_congr (f j).1 j c _ _
      (applyTrace_not_written (batchTrace f pre) j c
        (fun ev hev => targetsRow_false_writesCell j c ev
          (batch_not_target f pre j hownpre hjpre ev hev)) _)
  · rw [if_neg hj]
    exact applyTrace_not_written (batchTrace f idxs) j c
      (fun ev hev => targetsRow_false_writesCell j c ev
        (batch_not_target f idxs j hown hj ev hev)) _

lemma countP_batchTrace (f : Nat → List Ev × Nat) (idxs : List Nat) (q : Ev → Bool) :
    (batchTrace f idxs).countP q = (idxs.map (fun j => (f j).1.countP q)).sum := by
  induction idxs with
  | nil => simp [batchTrace]
  | cons j rest ih => simp [batchTrace_cons, List.countP_append, ih]

/-- Like `batch_not_target`, but for an index whose own loop body emits no
events (it may or may not be in the batch). -/
lemma batch_not_target_of_skip (f : Nat → List Ev × Nat) (idxs : List Nat) (j : Nat)
    (hown : ∀ k ∈ idxs, ∀ ev ∈ (f k).1, targetsRow k ev = true)
    (hj : (f j).1 = []) : ∀ ev ∈ batchTrace f idxs, targetsRow j ev = false := by
  intro ev hev
  rcases mem_batchTrace.mp hev with ⟨k, hk, hevk⟩
  by_cases hkj : k = j
  · subst hkj
    rw [hj] at hevk
    simp at hevk
  · have ht := hown k hk ev hevk
    cases ev with
    | send r a b c => simp [targetsRow] at ht ⊢; omega
    | cell r a b => simp [targetsRow] at ht ⊢; omega
    | notify m => rfl

/-- Relate the two data-row addressings: data row `i` of `rows[1:]` is sheet
row `i + 1` of `rows`. -/
lemma getD_drop_one (rows : List Row) (i : Nat) :
    (rows.drop 1).getD i [] = rows.getD (i + 1) [] := by
  cases rows with
  | nil => rfl
  | cons r0 rest => simp [List.getD_cons_succ]

lemma truthy_iff {o : Option String} :
    truthy o = true ↔ ∃ s, o = some s ∧ s ≠ "" := by
  cases o with
  | none => simp [truthy]
  | some s =>
    constructor
    · intro h
      refine ⟨s, rfl, ?_⟩
      rintro rfl
      exact absurd h (by decide)
    · rintro ⟨t, ht, hne⟩
      obtain rfl := Option.some.inj ht
      exact truthy_some hne

/-- `get_status` is the stripped raw status cell. -/
lemma get_status_eq_strip (row : Row) :
    get_status row = pyStrip (row.getD STATUS_COL_IDX "") := by
  unfold get_status
  split
  next h => rw [List.getD_eq_getElem _ _ h]; rfl
  next h =>
    rw [List.getD_eq_default _ _ (by omega)]
    decide

lemma sum_map_ite (p : Nat → Bool) (l : List Nat) :
    (l.map (fun j => if p j then 1 else 0)).sum = (l.filter p).length := by
  induction l with
  | nil => rfl
  | cons a t ih =>
    by_cases hp : p a = true
    · simp [hp, ih, List.filter_cons]
      omega
    · simp [hp, ih, List.filter_cons]

/-- The send event emitted by the active loop body carries the SMS template
instantiated with the row's first name. -/
lemma processActiveRow_send (env : Env) (d : Bool) (k : Nat) (row : Row)
    {j2 : Nat} {cid2 ty2 body2 : String}
    (h : Ev.send j2 cid2 ty2 body2 ∈ (processActiveRow env d k row).1) :
    j2 = k ∧ ty2 = "SMS" ∧ body2 = SMS_BODY_TEMPLATE (first_name_of row) := by
  simp only [processActiveRow] at h
  split at h
  · simp at h
  · split at h
    · simp at h
    · split at h
      · simp at h
      · split at h
        · simp at h
        · split at h
          · simp at h
          · split at h
            · simp at h
            · split at h
              · simp only [update_status, List.mem_cons, List.not_mem_nil,
                  or_false] at h
                rcases h with h | h
                · obtain ⟨h1, h2, h3, h4⟩ := Ev.send.inj h
                  exact ⟨h1, h3, h4⟩
                · exact absurd h (by simp)
              · simp only [update_status, List.mem_cons, List.not_mem_nil,
                  or_false] at h
                rcases h with h | h
                · obtain ⟨h1, h2, h3, h4⟩ := Ev.send.inj h
                  exact ⟨h1, h3, h4⟩
                · exact absurd h (by simp)

/-- The send event emitted by the new-batch loop body carries the email
template instantiated with the row's first name. -/
lemma processNewRow_send (env : Env) (d : Bool) (k : Nat) (row : Row)
    {j2 : Nat} {cid2 ty2 body2 : String}
    (h : Ev.send j2 cid2 ty2 body2 ∈ (processNewRow env d k row).1) :
    j2 = k ∧ ty2 = "Email" ∧ body2 = EMAIL_BODY_TEMPLATE (first_name_of row) := by
  simp only [processNewRow] at h
  split at h
  · simp at h
  · split at h
    · simp at h
    · split at h
      · simp only [update_status, List.mem_cons, List.not_mem_nil, or_false] at h
        rcases h with h | h | h
        · obtain ⟨h1, h2, h3, h4⟩ := Ev.send.inj h
          exact ⟨h1, h3, h4⟩
        · exact absurd h (by simp)
        · exact absurd h (by simp)
      · simp only [update_status, List.mem_cons, List.not_mem_nil, or_false] at h
        rcases h with h | h
        · obtain ⟨h1, h2, h3, h4⟩ := Ev.send.inj h
          exact ⟨h1, h3, h4⟩
        · exact absurd h (by simp)

/-! ### Concrete inputs for witnesses and counterexamples -/

/-- The header row of the sheet (always skipped by `main`). -/
def exHeader : Row :=
  ["Full name", "First name", "Email", "Phone", "Move date", "Movers", "Rate",
   "Contact ID", "Status"]

def rowC1 : Row := ["F", "Jane", "e", "p", "", "", "", "c123", "Email Sent", "D1"]

def sheetC1 : List Row := [exHeader, rowC1]

def envC1 : Env :=
  { now := 200000, nowIso := "2026-01-02T00:00:00",
    parseDate := fun s => if s = "D1" then some 0 else none,
    sendOk := fun _ => true }

def sheetC2 : List Row :=
  [exHeader,
   ["F", "A", "e", "p", "", "", "", "c1", "Email Sent", "D1"],
   ["F", "B", "e", "p", "", "", "", "c2", "New"]]

def envC2 : Env :=
  { now := 200000, nowIso := "2026-01-02T00:00:00",
    parseDate := fun s => if s = "D1" then some 0 else none,
    sendOk := fun _ => true }

def sheetC3 : List Row :=
  [exHeader,
   ["F", "A", "e", "p", "", "", "", "c1", "New"],
   ["F", "B", "e", "p", "", "", "", "c2", ""]]

def envC3 : Env :=
  { now := 200000, nowIso := "2026-01-02T00:00:00",
    parseDate := fun _ => none,
    sendOk := fun _ => true }

def rowC7 : Row := ["F", "Jane", "e", "p", "", "", "", "c123", ""]

def sheetC7 : List Row := [exHeader, rowC7]

def envC7 : Env :=
  { now := 0, nowIso := "2026-02-03T04:05:06",
    parseDate := fun _ => none,
    sendOk := fun _ => true }

def rowC8 : Row := ["F", "Jane", "e", "p", "", "", "", "c8", " Email Sent "]

def rowC9 : Row := ["F", "Jane", "e", "p", "", "", "", "c9", "Email Sent", "D9"]

def sheetC9 : List Row := [exHeader, rowC9]

def envC9 : Env :=
  { now := 200000, nowIso := "2026-01-02T00:00:00",
    parseDate := fun s => if s = "D9" then some 0 else none,
    sendOk := fun _ => true }

/-- 31 eligible rows; the first one has an empty contact id. -/
def sheetC10 : List Row :=
  exHeader :: (List.range 31).map (fun k =>
    ["F", "N" ++ toString k, "e", "p", "", "", "",
     if k = 0 then "" else "c" ++ toString k, "New"])

def envC10 : Env :=
  { now := 200000, nowIso := "2026-01-02T00:00:00",
    parseDate := fun _ => none,
    sendOk := fun _ => true }

def rowC6 : Row := ["F", "Jane", "e", "p", "", "", "", "c6", "Email Sent", "D6"]

def sheetC6 : List Row := [exHeader, rowC6]

def envC6 : Env :=
  { now := 36000, nowIso := "2026-01-01T10:00:00",
    parseDate := fun s => if s = "D6" then some 0 else none,
    sendOk := fun _ => true }

/-! ### The claims -/

/-- C1: for every row whose status is "Email Sent" with a non-empty
`contact_id` and a `date_sent` that parses and satisfies
`date_sent ≤ now − 24h`, a non-dry-run invocation of `main` sets that row's
status to "Done" when the SMS send succeeds and to "SMS Failed" when the SMS
send raises; in no case is such a row left at "Email Sent" after the run. -/
theorem C1_delayed_row_advances (env : Env) (rows : List Row) (i : Nat)
    (hstat : get_status (rows.getD (i + 1) []) = "Email Sent")
    (hcid : ∃ cid, contact_id_of (rows.getD (i + 1) []) = some cid ∧ cid ≠ "")
    (hdate : ∃ ds d, get_date_sent (rows.getD (i + 1) []) = some ds ∧ ds ≠ "" ∧
      env.parseDate ds = some d ∧ d ≤ env.now - delaySeconds) :
    cellAfter rows (mainRun env false rows) (i + 1) STATUS_COL_IDX =
      (if env.sendOk (i + 1) then "Done" else "SMS Failed") ∧
    cellAfter rows (mainRun env false rows) (i + 1) STATUS_COL_IDX ≠ "Email Sent" := by
  obtain ⟨cid, hcid, hne⟩ := hcid
  obtain ⟨ds, d, hds, hdne, hp, hd⟩ := hdate
  have hrange : i + 1 < rows.length := by
    by_contra hc
    push_neg at hc
    rw [List.getD_eq_default _ _ hc] at hstat
    exact absurd hstat (by decide)
  have hdata : (rows.drop 1).getD i [] = rows.getD (i + 1) [] := getD_drop_one rows i
  have hmem : (i + 1) ∈ activeBatchIndices (rows.drop 1) := by
    rw [mem_activeBatchIndices]
    refine ⟨?_, ?_⟩
    · rw [List.length_drop]; omega
    · rw [hdata]
      simp only [isActiveStatus, beq_iff_eq]
      exact hstat
  have hneact : activeBatchIndices (rows.drop 1) ≠ [] := by
    intro hh
    rw [hh] at hmem
    simp at hmem
  rw [mainRun_active_eq env false rows hneact]
  have hown : ∀ k ∈ activeBatchIndices (rows.drop 1),
      ∀ ev ∈ ((fun j => processActiveRow env false j (rows.getD j [])) k).1,
        targetsRow k ev = true :=
    fun k _ => processActiveRow_targets env false k _
  have htail : ∀ ev ∈ notifyIf false
      (batchCount (fun j => processActiveRow env false j (rows.getD j []))
        (activeBatchIndices (rows.drop 1)))
      (activeNotifyMsg
        (batchCount (fun j => processActiveRow env false j (rows.getD j []))
          (activeBatchIndices (rows.drop 1)))),
      writesCell (i + 1) STATUS_COL_IDX ev = false := by
    intro ev hev
    rw [notifyIf_mem hev]
    rfl
  rw [cellAfter_batch rows _ _ _ (i + 1) STATUS_COL_IDX hown
    (nodup_collectIdx isActiveStatus (rows.drop 1) 0) htail, if_pos hmem]
  have hrun := processActiveRow_run env (i + 1) (rows.getD (i + 1) [])
    hcid hne hds hdne hp (by omega)
  rw [hrun]
  constructor
  · by_cases hok : env.sendOk (i + 1) = true
    · simp [applyTrace, applyEv, hok]
    · simp only [Bool.not_eq_true] at hok
      simp [applyTrace, applyEv, hok]
  · by_cases hok : env.sendOk (i + 1) = true
    · simp only [applyTrace, applyEv, hok, if_true]
      simp only [and_self, if_pos]
      decide
    · simp only [Bool.not_eq_true] at hok
      simp only [applyTrace, applyEv, hok, Bool.false_eq_true, if_false]
      simp only [and_self, if_pos]
      decide

/-- Witness for C1 at a concrete one-row sheet whose send succeeds. -/
theorem C1_witness :
    (get_status (sheetC1.getD 1 []) = "Email Sent" ∧
      (∃ cid, contact_id_of (sheetC1.getD 1 []) = some cid ∧ cid ≠ "") ∧
      (∃ ds d, get_date_sent (sheetC1.getD 1 []) = some ds ∧ ds ≠ "" ∧
        envC1.parseDate ds = some d ∧ d ≤ envC1.now - delaySeconds)) ∧
    (cellAfter sheetC1 (mainRun envC1 false sheetC1) 1 STATUS_COL_IDX =
      (if envC1.sendOk 1 then "Done" else "SMS Failed") ∧
     cellAfter sheetC1 (mainRun envC1 false sheetC1) 1 STATUS_COL_IDX ≠ "Email Sent") := by
  have h1 : get_status (sheetC1.getD 1 []) = "Email Sent" := by decide
  have h2 : ∃ cid, contact_id_of (sheetC1.getD 1 []) = some cid ∧ cid ≠ "" :=
    ⟨"c123", by decide, by decide⟩
  have h3 : ∃ ds d, get_date_sent (sheetC1.getD 1 []) = some ds ∧ ds ≠ "" ∧
      envC1.parseDate ds = some d ∧ d ≤ envC1.now - delaySeconds :=
    ⟨"D1", 0, by decide, by decide, by decide, by decide⟩
  exact ⟨⟨h1, h2, h3⟩, C1_delayed_row_advances envC1 sheetC1 0 h1 h2 h3⟩

/-- C4: an invocation of `main` with `dry_run = true` performs no spreadsheet
write, no messaging-API call and no notification-webhook call, on every input
sheet and in both branches: its effect trace is empty. -/
theorem C4_dry_run_no_effects (env : Env) (rows : List Row) :
    mainRun env true rows = [] := by
  by_cases h : activeBatchIndices (rows.drop 1) = []
  · rw [mainRun_new_eq env true rows h,
      batchTrace_nil _ _ (fun j _ => processNewRow_dry env j _)]
    simp [notifyIf]
  · rw [mainRun_active_eq env true rows h,
      batchTrace_nil _ _ (fun j _ => processActiveRow_dry env j _)]
    simp [notifyIf]

/-- C6: a row whose status is "Email Sent" and whose `date_sent` parses to a
time strictly later than `now − 24h` is left untouched by a run: no event of
the run concerns it, and every one of its cells is unchanged. -/
theorem C6_waiting_row_untouched (env : Env) (dr : Bool) (rows : List Row) (i : Nat)
    {ds : String} {d : Int}
    (hstat : get_status (rows.getD (i + 1) []) = "Email Sent")
    (hds : get_date_sent (rows.getD (i + 1) []) = some ds)
    (hp : env.parseDate ds = some d)
    (ht : env.now - d < delaySeconds) :
    (∀ ev ∈ mainRun env dr rows, targetsRow (i + 1) ev = false) ∧
    (∀ c, cellAfter rows (mainRun env dr rows) (i + 1) c = sheetOf rows (i + 1) c) := by
  have hmain : ∀ ev ∈ mainRun env dr rows, targetsRow (i + 1) ev = false := by
    by_cases hact : activeBatchIndices (rows.drop 1) = []
    · rw [mainRun_new_eq env dr rows hact]
      intro ev hev
      rcases List.mem_append.mp hev with hb | hn
      · refine batch_not_target _ _ (i + 1)
          (fun k _ => processNewRow_targets env dr k _) ?_ ev hb
        intro hmem
        have hc := mem_of_mem_newBatchIndices hmem
        rw [mem_collectIdx_succ] at hc
        obtain ⟨_, hns⟩ := hc
        rw [getD_drop_one] at hns
        simp only [isNewStatus, hstat] at hns
        exact absurd hns (by decide)
      · rw [notifyIf_mem hn]; rfl
    · rw [mainRun_active_eq env dr rows hact]
      intro ev hev
      rcases List.mem_append.mp hev with hb | hn
      · exact batch_not_target_of_skip
          (fun j => processActiveRow env dr j (rows.getD j []))
          (activeBatchIndices (rows.drop 1)) (i + 1)
          (fun k _ => processActiveRow_targets env dr k _)
          (processActiveRow_skip_time env dr (i + 1) _ hds hp ht) ev hb
      · rw [notifyIf_mem hn]; rfl
  refine ⟨hmain, fun c => ?_⟩
  exact applyTrace_not_written _ (i + 1) c
    (fun ev hev => targetsRow_false_writesCell _ _ _ (hmain ev hev)) _

/-- C2: in any single invocation of `main`, if at least one data row has
status "Email Sent", then no email-channel messaging call is made, and no row
classified "New" or "" is targeted by any event of the run (not sent to, not
written): the new-batch step is skipped entirely. -/
theorem C2_branch_exclusivity (env : Env) (dr : Bool) (rows : List Row)
    (h : ∃ i, i < (rows.drop 1).length ∧
      get_status ((rows.drop 1).getD i []) = "Email Sent") :
    (∀ ev ∈ mainRun env dr rows, isEmailSend ev = false) ∧
    (∀ i, (get_status (rows.getD (i + 1) []) = "New" ∨
           get_status (rows.getD (i + 1) []) = "") →
      ∀ ev ∈ mainRun env dr rows, targetsRow (i + 1) ev = false) := by
  obtain ⟨i0, hi0, hst0⟩ := h
  have hmem : (i0 + 1) ∈ activeBatchIndices (rows.drop 1) := by
    rw [mem_activeBatchIndices]
    refine ⟨hi0, ?_⟩
    simp only [isActiveStatus, beq_iff_eq]
    exact hst0
  have hne : activeBatchIndices (rows.drop 1) ≠ [] := by
    intro hh
    rw [hh] at hmem
    simp at hmem
  rw [mainRun_active_eq env dr rows hne]
  constructor
  · intro ev hev
    rcases List.mem_append.mp hev with hb | hn
    · rcases mem_batchTrace.mp hb with ⟨k, hk, hevk⟩
      exact processActiveRow_no_email env dr k _ ev hevk
    · rw [notifyIf_mem hn]; rfl
  · intro i hnew ev hev
    rcases List.mem_append.mp hev with hb | hn
    · refine batch_not_target _ _ (i + 1)
        (fun k _ => processActiveRow_targets env dr k _) ?_ ev hb
      intro hmem2
      rw [mem_activeBatchIndices] at hmem2
      obtain ⟨_, hact⟩ := hmem2
      rw [getD_drop_one] at hact
      simp only [isActiveStatus, beq_iff_eq] at hact
      rcases hnew with hn2 | hn2 <;> rw [hn2] at hact <;> exact absurd hact (by decide)
    · rw [notifyIf_mem hn]; rfl

/-- Witness for C2 at a sheet holding one "Email Sent" row and one "New" row. -/
theorem C2_witness :
    (∃ i, i < (sheetC2.drop 1).length ∧
      get_status ((sheetC2.drop 1).getD i []) = "Email Sent") ∧
    ((∀ ev ∈ mainRun envC2 false sheetC2, isEmailSend ev = false) ∧
     (∀ i, (get_status (sheetC2.getD (i + 1) []) = "New" ∨
            get_status (sheetC2.getD (i + 1) []) = "") →
        ∀ ev ∈ mainRun envC2 false sheetC2, targetsRow (i + 1) ev = false)) := by
  have h : ∃ i, i < (sheetC2.drop 1).length ∧
      get_status ((sheetC2.drop 1).getD i []) = "Email Sent" :=
    ⟨0, by decide, by decide⟩
  exact ⟨h, C2_branch_exclusivity envC2 false sheetC2 h⟩

/-- C3: new-batch selection selects at most `BATCH_SIZE = 30` rows, selects
exactly the earliest-indexed eligible rows (the scan of eligible indices is
strictly increasing, and the selection is its 30-element prefix), and every
row outside the selection is untouched by the run. -/
theorem C3_new_batch_cap (env : Env) (dr : Bool) (rows : List Row)
    (hactive : activeBatchIndices (rows.drop 1) = []) :
    newBatchIndices (rows.drop 1) =
      (collectIdx isNewStatus 0 (rows.drop 1)).take BATCH_SIZE ∧
    (newBatchIndices (rows.drop 1)).length ≤ BATCH_SIZE ∧
    List.Sorted (· < ·) (collectIdx isNewStatus 0 (rows.drop 1)) ∧
    (∀ j, j ∉ newBatchIndices (rows.drop 1) →
      ∀ ev ∈ mainRun env dr rows, targetsRow j ev = false) := by
  refine ⟨newBatchIndices_eq _, ?_, sorted_collectIdx _ _ 0, ?_⟩
  · rw [newBatchIndices_eq, List.length_take]
    exact min_le_left _ _
  · intro j hj ev hev
    rw [mainRun_new_eq env dr rows hactive] at hev
    rcases List.mem_append.mp hev with hb | hn
    · exact batch_not_target _ _ j
        (fun k _ => processNewRow_targets env dr k _) hj ev hb
    · rw [notifyIf_mem hn]; rfl

/-- Witness for C3 at a sheet holding two "New" rows and no active row. -/
theorem C3_witness :
    activeBatchIndices (sheetC3.drop 1) = [] ∧
    (newBatchIndices (sheetC3.drop 1) =
      (collectIdx isNewStatus 0 (sheetC3.drop 1)).take BATCH_SIZE ∧
    (newBatchIndices (sheetC3.drop 1)).length ≤ BATCH_SIZE ∧
    List.Sorted (· < ·) (collectIdx isNewStatus 0 (sheetC3.drop 1)) ∧
    (∀ j, j ∉ newBatchIndices (sheetC3.drop 1) →
      ∀ ev ∈ mainRun envC3 false sheetC3, targetsRow j ev = false)) := by
  have h : activeBatchIndices (sheetC3.drop 1) = [] := by decide
  exact ⟨h, C3_new_batch_cap envC3 false sheetC3 h⟩

/-- C5: statuses only move forward. For every sheet row, either no event of
the run concerns it at all, or it is classified "Email Sent" and its status
cell ends the run at "Done" or "SMS Failed", or it is classified "New"/"" and
its status cell ends the run at "Email Sent" or "Email Failed". In particular
rows classified "Done", "Email Failed" or "SMS Failed" are never written. -/
theorem C5_forward_transitions (env : Env) (dr : Bool) (rows : List Row) (j : Nat) :
    (∀ ev ∈ mainRun env dr rows, targetsRow j ev = false) ∨
    (get_status (rows.getD j []) = "Email Sent" ∧
      (cellAfter rows (mainRun env dr rows) j STATUS_COL_IDX = "Done" ∨
       cellAfter rows (mainRun env dr rows) j STATUS_COL_IDX = "SMS Failed")) ∨
    ((get_status (rows.getD j []) = "New" ∨ get_status (rows.getD j []) = "") ∧
      (cellAfter rows (mainRun env dr rows) j STATUS_COL_IDX = "Email Sent" ∨
       cellAfter rows (mainRun env dr rows) j STATUS_COL_IDX = "Email Failed")) := by
  by_cases hact : activeBatchIndices (rows.drop 1) = []
  · rw [mainRun_new_eq env dr rows hact]
    by_cases hj : j ∈ newBatchIndices (rows.drop 1)
    · have hjc := mem_of_mem_newBatchIndices hj
      have hj0 : 0 < j := lt_of_mem_collectIdx isNewStatus (rows.drop 1) 0 j hjc
      obtain ⟨i, rfl⟩ : ∃ i, j = i + 1 := ⟨j - 1, by omega⟩
      rw [mem_collectIdx_succ] at hjc
      obtain ⟨hilen, hns⟩ := hjc
      rw [getD_drop_one] at hns
      simp only [isNewStatus, Bool.or_eq_true, beq_iff_eq] at hns
      have hca := cellAfter_batch rows
        (fun j2 => processNewRow env dr j2 (rows.getD j2 []))
        (newBatchIndices (rows.drop 1))
        (notifyIf dr
          (batchCount (fun j2 => processNewRow env dr j2 (rows.getD j2 []))
            (newBatchIndices (rows.drop 1)))
          (newNotifyMsg
            (batchCount (fun j2 => processNewRow env dr j2 (rows.getD j2 []))
              (newBatchIndices (rows.drop 1)))))
        (i + 1) STATUS_COL_IDX
        (fun k _ => processNewRow_targets env dr k _)
        (nodup_newBatchIndices _)
        (by intro ev hev; rw [notifyIf_mem hev]; rfl)
      rw [if_pos hj] at hca
      rcases processNewRow_shape env dr (i + 1) (rows.getD (i + 1) []) with
        hsh | ⟨hok, cid, body, hsh⟩ | ⟨hok, cid, body, hsh⟩
      · left
        intro ev hev
        rcases List.mem_append.mp hev with hb | hn
        · exact batch_not_target_of_skip
            (fun j2 => processNewRow env dr j2 (rows.getD j2 []))
            (newBatchIndices (rows.drop 1)) (i + 1)
            (fun k _ => processNewRow_targets env dr k _) hsh ev hb
        · rw [notifyIf_mem hn]; rfl
      · right; right
        refine ⟨hns, Or.inl ?_⟩
        rw [hca, hsh]
        simp [applyTrace, applyEv, STATUS_COL_IDX, DATE_SENT_COL_IDX]
      · right; right
        refine ⟨hns, Or.inr ?_⟩
        rw [hca, hsh]
        simp [applyTrace, applyEv]
    · left
      intro ev hev
      rcases List.mem_append.mp hev with hb | hn
      · exact batch_not_target _ _ j
          (fun k _ => processNewRow_targets env dr k _) hj ev hb
      · rw [notifyIf_mem hn]; rfl
  · rw [mainRun_active_eq env dr rows hact]
    by_cases hj : j ∈ activeBatchIndices (rows.drop 1)
    · have hj0 : 0 < j := lt_of_mem_collectIdx isActiveStatus (rows.drop 1) 0 j hj
      obtain ⟨i, rfl⟩ : ∃ i, j = i + 1 := ⟨j - 1, by omega⟩
      have hj2 := hj
      rw [mem_activeBatchIndices] at hj2
      obtain ⟨hilen, hes⟩ := hj2
      rw [getD_drop_one] at hes
      simp only [isActiveStatus, beq_iff_eq] at hes
      have hca := cellAfter_batch rows
        (fun j2 => processActiveRow env dr j2 (rows.getD j2 []))
        (activeBatchIndices (rows.drop 1))
        (notifyIf dr
          (batchCount (fun j2 => processActiveRow env dr j2 (rows.getD j2 []))
            (activeBatchIndices (rows.drop 1)))
          (activeNotifyMsg
            (batchCount (fun j2 => processActiveRow env dr j2 (rows.getD j2 []))
              (activeBatchIndices (rows.drop 1)))))
        (i + 1) STATUS_COL_IDX
        (fun k _ => processActiveRow_targets env dr k _)
        (nodup_collectIdx isActiveStatus _ 0)
        (by intro ev hev; rw [notifyIf_mem hev]; rfl)
      rw [if_pos hj] at hca
      rcases processActiveRow_shape env dr (i + 1) (rows.getD (i + 1) []) with
        hsh | ⟨cid, body, hsh⟩
      · left
        intro ev hev
        rcases List.mem_append.mp hev with hb | hn
        · exact batch_not_target_of_skip
            (fun j2 => processActiveRow env dr j2 (rows.getD j2 []))
            (activeBatchIndices (rows.drop 1)) (i + 1)
            (fun k _ => processActiveRow_targets env dr k _) hsh ev hb
        · rw [notifyIf_mem hn]; rfl
      · right; left
        refine ⟨hes, ?_⟩
        rw [hca, hsh]
        by_cases hok : env.sendOk (i + 1) = true
        · left
          simp [applyTrace, applyEv, hok]
        · right
          simp only [Bool.not_eq_true] at hok
          simp [applyTrace, applyEv, hok]
    · left
      intro ev hev
      rcases List.mem_append.mp hev with hb | hn
      · exact batch_not_target _ _ j
          (fun k _ => processActiveRow_targets env dr k _) hj ev hb
      · rw [notifyIf_mem hn]; rfl

/-- Counterexample to C7 as stated: after the status cell write and before the
date cell write (the first two events of the run), the sheet has the row at
"Email Sent" with its date cell still empty — `update_status` makes two
separate single-cell writes, so this intermediate state is reachable. -/
theorem C7_counterexample :
    cellAfter sheetC7 ((mainRun envC7 false sheetC7).take 2) 1 STATUS_COL_IDX =
      "Email Sent" ∧
    cellAfter sheetC7 ((mainRun envC7 false sheetC7).take 2) 1 DATE_SENT_COL_IDX = "" ∧
    envC7.nowIso ≠ "" := by
  refine ⟨by decide, by decide, by decide⟩

/-- C7 amended: when a first-step email send succeeds for a selected row, the
status cell is set to "Email Sent" and the date cell to the current timestamp
within the same `update_status` call — as two consecutive single-cell writes,
status first — and at the end of the run both cells hold those values (so an
intermediate state with status "Email Sent" and no timestamp is reachable
between the two writes, but not after the call completes). -/
theorem C7_amended_same_call_two_writes (env : Env) (rows : List Row) (j : Nat)
    {cid : String}
    (hactive : activeBatchIndices (rows.drop 1) = [])
    (hsel : j ∈ newBatchIndices (rows.drop 1))
    (hcid : contact_id_of (rows.getD j []) = some cid) (hne : cid ≠ "")
    (hok : env.sendOk j = true) :
    (processNewRow env false j (rows.getD j [])).1 =
      [Ev.send j cid "Email" (EMAIL_BODY_TEMPLATE (first_name_of (rows.getD j []))),
       Ev.cell j STATUS_COL_IDX "Email Sent",
       Ev.cell j DATE_SENT_COL_IDX env.nowIso] ∧
    cellAfter rows (mainRun env false rows) j STATUS_COL_IDX = "Email Sent" ∧
    cellAfter rows (mainRun env false rows) j DATE_SENT_COL_IDX = env.nowIso := by
  have hrun := processNewRow_run_ok env j (rows.getD j []) hcid hne hok
  have hca : ∀ c, cellAfter rows (mainRun env false rows) j c =
      applyTrace (sheetOf rows)
        (processNewRow env false j (rows.getD j [])).1 j c := by
    intro c
    rw [mainRun_new_eq env false rows hactive]
    have h := cellAfter_batch rows
      (fun j2 => processNewRow env false j2 (rows.getD j2 []))
      (newBatchIndices (rows.drop 1))
      (notifyIf false
        (batchCount (fun j2 => processNewRow env false j2 (rows.getD j2 []))
          (newBatchIndices (rows.drop 1)))
        (newNotifyMsg
          (batchCount (fun j2 => processNewRow env false j2 (rows.getD j2 []))
            (newBatchIndices (rows.drop 1)))))
      j c
      (fun k _ => processNewRow_targets env false k _)
      (nodup_newBatchIndices _)
      (by intro ev hev; rw [notifyIf_mem hev]; rfl)
    rw [if_pos hsel] at h
    exact h
  refine ⟨by rw [hrun], ?_, ?_⟩
  · rw [hca, hrun]
    simp [applyTrace, applyEv, STATUS_COL_IDX, DATE_SENT_COL_IDX]
  · rw [hca, hrun]
    simp [applyTrace, applyEv, STATUS_COL_IDX, DATE_SENT_COL_IDX]

/-- Witness for the amended C7 at a concrete one-row sheet. -/
theorem C7_amended_witness :
    (activeBatchIndices (sheetC7.drop 1) = [] ∧
      1 ∈ newBatchIndices (sheetC7.drop 1) ∧
      contact_id_of (sheetC7.getD 1 []) = some "c123" ∧
      ("c123" : String) ≠ "" ∧
      envC7.sendOk 1 = true) ∧
    ((processNewRow envC7 false 1 (sheetC7.getD 1 [])).1 =
      [Ev.send 1 "c123" "Email" (EMAIL_BODY_TEMPLATE (first_name_of (sheetC7.getD 1 []))),
       Ev.cell 1 STATUS_COL_IDX "Email Sent",
       Ev.cell 1 DATE_SENT_COL_IDX envC7.nowIso] ∧
     cellAfter sheetC7 (mainRun envC7 false sheetC7) 1 STATUS_COL_IDX = "Email Sent" ∧
     cellAfter sheetC7 (mainRun envC7 false sheetC7) 1 DATE_SENT_COL_IDX = envC7.nowIso) := by
  have h1 : activeBatchIndices (sheetC7.drop 1) = [] := by decide
  have h2 : 1 ∈ newBatchIndices (sheetC7.drop 1) := by decide
  have h3 : contact_id_of (sheetC7.getD 1 []) = some "c123" := by decide
  have h4 : ("c123" : String) ≠ "" := by decide
  have h5 : envC7.sendOk 1 = true := by decide
  exact ⟨⟨h1, h2, h3, h4, h5⟩,
    C7_amended_same_call_two_writes envC7 sheetC7 1 h1 h2 h3 h4 h5⟩

/-- Counterexample to C8 as stated: a status cell reading " Email Sent " (with
surrounding whitespace) is not character-for-character equal to "Email Sent",
yet the row is classified as active, because `get_status` strips the cell
before comparing. -/
theorem C8_counterexample :
    1 ∈ activeBatchIndices [rowC8] ∧
    rowC8.getD STATUS_COL_IDX "" ≠ "Email Sent" := by
  refine ⟨by decide, by decide⟩

/-- C8 amended: classification compares the status cell after stripping
leading and trailing whitespace (Python `str.strip()`), and is otherwise an
exact case- and value-sensitive comparison: a row is active exactly when its
stripped status cell equals "Email Sent", and new-eligible exactly when its
stripped status cell equals "New" or "". -/
theorem C8_amended_strip_classification (data_rows : List Row) (i : Nat) :
    ((i + 1) ∈ activeBatchIndices data_rows ↔
      i < data_rows.length ∧
        pyStrip ((data_rows.getD i []).getD STATUS_COL_IDX "") = "Email Sent") ∧
    ((i + 1) ∈ collectIdx isNewStatus 0 data_rows ↔
      i < data_rows.length ∧
        (pyStrip ((data_rows.getD i []).getD STATUS_COL_IDX "") = "New" ∨
         pyStrip ((data_rows.getD i []).getD STATUS_COL_IDX "") = "")) := by
  constructor
  · rw [mem_activeBatchIndices]
    constructor
    · rintro ⟨h1, h2⟩
      refine ⟨h1, ?_⟩
      rw [← get_status_eq_strip]
      simpa [isActiveStatus, beq_iff_eq] using h2
    · rintro ⟨h1, h2⟩
      refine ⟨h1, ?_⟩
      rw [← get_status_eq_strip] at h2
      simp only [isActiveStatus, beq_iff_eq]
      exact h2
  · rw [mem_collectIdx_succ]
    constructor
    · rintro ⟨h1, h2⟩
      refine ⟨h1, ?_⟩
      rw [← get_status_eq_strip]
      simpa [isNewStatus, Bool.or_eq_true, beq_iff_eq] using h2
    · rintro ⟨h1, h2⟩
      refine ⟨h1, ?_⟩
      rw [← get_status_eq_strip] at h2
      simp only [isNewStatus, Bool.or_eq_true, beq_iff_eq]
      exact h2

/-- C9: every messaging call of a run personalizes its body with the row's
first-name cell when the row is long enough to have one, and with the default
"there" otherwise — SMS bodies through the SMS template, email bodies through
the email template. -/
theorem C9_first_name_default (env : Env) (dr : Bool) (rows : List Row)
    (j : Nat) (cid ty body : String)
    (h : Ev.send j cid ty body ∈ mainRun env dr rows) :
    body = (if ty = "SMS" then SMS_BODY_TEMPLATE else EMAIL_BODY_TEMPLATE)
      (if h2 : FIRST_NAME_COL_IDX < (rows.getD j []).length
       then (rows.getD j []).get ⟨FIRST_NAME_COL_IDX, h2⟩ else "there") := by
  have hfn : (if h2 : FIRST_NAME_COL_IDX < (rows.getD j []).length
      then (rows.getD j []).get ⟨FIRST_NAME_COL_IDX, h2⟩ else "there") =
      first_name_of (rows.getD j []) := rfl
  rw [hfn]
  by_cases hact : activeBatchIndices (rows.drop 1) = []
  · rw [mainRun_new_eq env dr rows hact] at h
    rcases List.mem_append.mp h with hb | hn
    · rcases mem_batchTrace.mp hb with ⟨k, hk, hevk⟩
      obtain ⟨rfl, rfl, hbody⟩ := processNewRow_send env dr k _ hevk
      rw [hbody, if_neg (by decide)]
    · have := notifyIf_mem hn
      simp at this
  · rw [mainRun_active_eq env dr rows hact] at h
    rcases List.mem_append.mp h with hb | hn
    · rcases mem_batchTrace.mp hb with ⟨k, hk, hevk⟩
      obtain ⟨rfl, rfl, hbody⟩ := processActiveRow_send env dr k _ hevk
      rw [hbody, if_pos rfl]
    · have := notifyIf_mem hn
      simp at this

/-- Witness for C9 at a concrete active-batch sheet: the SMS body sent for the
row is the SMS template instantiated with the stored first name "Jane". -/
theorem C9_witness :
    Ev.send 1 "c9" "SMS" (SMS_BODY_TEMPLATE "Jane") ∈ mainRun envC9 false sheetC9 ∧
    SMS_BODY_TEMPLATE "Jane" =
      (if ("SMS" : String) = "SMS" then SMS_BODY_TEMPLATE else EMAIL_BODY_TEMPLATE)
        (if h2 : FIRST_NAME_COL_IDX < (sheetC9.getD 1 []).length
         then (sheetC9.getD 1 []).get ⟨FIRST_NAME_COL_IDX, h2⟩ else "there") := by
  have hm : Ev.send 1 "c9" "SMS" (SMS_BODY_TEMPLATE "Jane") ∈
      mainRun envC9 false sheetC9 := by
    set_option maxRecDepth 20000 in decide
  exact ⟨hm, C9_first_name_default envC9 false sheetC9 1 "c9" "SMS" _ hm⟩

/-- C10 (implicit): new-batch capacity is consumed at selection time. The
selection is the 30-element prefix of the eligible rows regardless of their
contact ids; a selected row with a missing contact id produces no events yet
occupies a slot; rows outside the selection are untouched; and the number of
emails actually sent equals the number of selected rows with a truthy contact
id — which can be below 30 even when more than 30 rows are eligible. -/
theorem C10_selection_consumes_capacity (env : Env) (rows : List Row)
    (hactive : activeBatchIndices (rows.drop 1) = []) :
    newBatchIndices (rows.drop 1) =
      (collectIdx isNewStatus 0 (rows.drop 1)).take BATCH_SIZE ∧
    (∀ j ∈ newBatchIndices (rows.drop 1),
      truthy (contact_id_of (rows.getD j [])) = false →
      ∀ ev ∈ mainRun env false rows, targetsRow j ev = false) ∧
    (∀ j, j ∉ newBatchIndices (rows.drop 1) →
      ∀ ev ∈ mainRun env false rows, targetsRow j ev = false) ∧
    (mainRun env false rows).countP isEmailSend =
      ((newBatchIndices (rows.drop 1)).filter
        (fun j => truthy (contact_id_of (rows.getD j [])))).length := by
  refine ⟨newBatchIndices_eq _, ?_, ?_, ?_⟩
  · intro j hj hfalsy ev hev
    rw [mainRun_new_eq env false rows hactive] at hev
    rcases List.mem_append.mp hev with hb | hn
    · exact batch_not_target_of_skip
        (fun j2 => processNewRow env false j2 (rows.getD j2 []))
        (newBatchIndices (rows.drop 1)) j
        (fun k _ => processNewRow_targets env false k _)
        (show (processNewRow env false j (rows.getD j [])).1 = [] by
          rw [processNewRow_skip env false j (rows.getD j []) hfalsy]) ev hb
    · rw [notifyIf_mem hn]; rfl
  · intro j hj ev hev
    rw [mainRun_new_eq env false rows hactive] at hev
    rcases List.mem_append.mp hev with hb | hn
    · exact batch_not_target _ _ j
        (fun k _ => processNewRow_targets env false k _) hj ev hb
    · rw [notifyIf_mem hn]; rfl
  · rw [mainRun_new_eq env false rows hactive, List.countP_append]
    have hnotify : (notifyIf false
        (batchCount (fun j2 => processNewRow env false j2 (rows.getD j2 []))
          (newBatchIndices (rows.drop 1)))
        (newNotifyMsg
          (batchCount (fun j2 => processNewRow env false j2 (rows.getD j2 []))
            (newBatchIndices (rows.drop 1))))).countP isEmailSend = 0 := by
      unfold notifyIf
      split
      · simp [List.countP_cons, isEmailSend]
      · rfl
    rw [hnotify, Nat.add_zero, countP_batchTrace]
    have hpoint : ∀ j ∈ newBatchIndices (rows.drop 1),
        ((fun j2 => processNewRow env false j2 (rows.getD j2 [])) j).1.countP
          isEmailSend =
        (fun j2 => if truthy (contact_id_of (rows.getD j2 [])) then 1 else 0) j := by
      intro j hj
      show (processNewRow env false j (rows.getD j [])).1.countP isEmailSend =
        if truthy (contact_id_of (rows.getD j [])) then 1 else 0
      by_cases htr : truthy (contact_id_of (rows.getD j [])) = true
      · obtain ⟨cid, hcid, hne⟩ := truthy_iff.mp htr
        by_cases hok : env.sendOk j = true
        · rw [processNewRow_run_ok env j (rows.getD j []) hcid hne hok, htr]
          simp [List.countP_cons, isEmailSend]
        · simp only [Bool.not_eq_true] at hok
          rw [processNewRow_run_fail env j (rows.getD j []) hcid hne hok, htr]
          simp [List.countP_cons, isEmailSend]
      · simp only [Bool.not_eq_true] at htr
        rw [processNewRow_skip env false j (rows.getD j []) htr, htr]
        simp
    rw [List.map_congr_left hpoint]
    exact sum_map_ite _ _

/-- Witness for C10 at a 31-eligible-row sheet whose first data row lacks a
contact id. -/
theorem C10_witness :
    activeBatchIndices (sheetC10.drop 1) = [] ∧
    (newBatchIndices (sheetC10.drop 1) =
      (collectIdx isNewStatus 0 (sheetC10.drop 1)).take BATCH_SIZE ∧
    (∀ j ∈ newBatchIndices (sheetC10.drop 1),
      truthy (contact_id_of (sheetC10.getD j [])) = false →
      ∀ ev ∈ mainRun envC10 false sheetC10, targetsRow j ev = false) ∧
    (∀ j, j ∉ newBatchIndices (sheetC10.drop 1) →
      ∀ ev ∈ mainRun envC10 false sheetC10, targetsRow j ev = false) ∧
    (mainRun envC10 false sheetC10).countP isEmailSend =
      ((newBatchIndices (sheetC10.drop 1)).filter
        (fun j => truthy (contact_id_of (sheetC10.getD j [])))).length) := by
  have h : activeBatchIndices (sheetC10.drop 1) = [] := by decide
  exact ⟨h, C10_selection_consumes_capacity envC10 sheetC10 h⟩

/-- Witness for C6 at a concrete sheet whose one active row is 10 hours old. -/
theorem C6_witness :
    (get_status (sheetC6.getD 1 []) = "Email Sent" ∧
      get_date_sent (sheetC6.getD 1 []) = some "D6" ∧
      envC6.parseDate "D6" = some 0 ∧
      envC6.now - 0 < delaySeconds) ∧
    ((∀ ev ∈ mainRun envC6 false sheetC6, targetsRow 1 ev = false) ∧
     (∀ c, cellAfter sheetC6 (mainRun envC6 false sheetC6) 1 c = sheetOf sheetC6 1 c)) := by
  have h1 : get_status (sheetC6.getD 1 []) = "Email Sent" := by decide
  have h2 : get_date_sent (sheetC6.getD 1 []) = some "D6" := by decide
  have h3 : envC6.parseDate "D6" = some 0 := by decide
  have h4 : envC6.now - 0 < delaySeconds := by decide
  exact ⟨⟨h1, h2, h3, h4⟩, C6_waiting_row_untouched envC6 false sheetC6 0 h1 h2 h3 h4⟩

end Reactivation
